import Mathlib

/-!
Shallow embedding of the realtime-client-front browser client
(src/js/audioManager.js, src/js/websocket.js, and the alternate
AudioManager revision src/unnamed/part_000), with proofs of the
spec's claims about it.

Numeric conventions: audio samples are modelled as rationals (the JS
engine computes the codec's products and truncations exactly in
float64 for the magnitudes involved), PCM samples as integers, byte
arrays as lists of naturals below 256.  JavaScript's ToInt16
truncation-and-wrap is modelled explicitly.
-/

/-! ## PCM codec (AudioManager.floatTo16BitPCM / int16ToFloat32) -/

/-- Clamping step of floatTo16BitPCM: `Math.max(-1, Math.min(1, input[i]))`. -/
def clamp (v : ℚ) : ℚ := max (-1) (min 1 v)

/-- JavaScript number-to-integer truncation (round toward zero), the first
step of the ToInt16 conversion performed by an `Int16Array` element store. -/
def jsTrunc (q : ℚ) : ℤ := if 0 ≤ q then ⌊q⌋ else ⌈q⌉

/-- Wrap of a truncated number into the signed 16-bit range, the second step
of the ToInt16 conversion performed by an `Int16Array` element store. -/
def toInt16 (n : ℤ) : ℤ := (n + 32768) % 65536 - 32768

/-- One sample of `AudioManager.floatTo16BitPCM` (src/js/audioManager.js
lines 250-257): clamp to [-1,1], then `s < 0 ? s * 0x8000 : s * 0x7fff`
stored into an `Int16Array` slot (truncate toward zero, wrap to 16 bits). -/
def pcmOfSample (v : ℚ) : ℤ :=
  toInt16 (jsTrunc (clamp v * (if clamp v < 0 then 32768 else 32767)))

/-- `AudioManager.floatTo16BitPCM` (src/js/audioManager.js lines 250-257;
identical in src/unnamed/part_000 lines 258-267). -/
def floatTo16BitPCM (input : List ℚ) : List ℤ := input.map pcmOfSample

/-- One sample of `AudioManager.int16ToFloat32`:
`int16Data[i] / (int16Data[i] < 0 ? 0x8000 : 0x7fff)`. -/
def floatOfPcm (v : ℤ) : ℚ := (v : ℚ) / (if v < 0 then 32768 else 32767)

/-- `AudioManager.int16ToFloat32` (src/js/audioManager.js lines 264-278),
taking the samples already viewed as int16 values. -/
def int16ToFloat32 (input : List ℤ) : List ℚ := input.map floatOfPcm

/-! ## Base64 transport encoding (WebSocketManager.arrayToBase64 /
base64ToUint8Array)

`arrayToBase64` builds a binary string from the bytes and calls the
platform's `window.btoa`; `base64ToUint8Array` calls `window.atob` and reads
the char codes back.  `btoa`/`atob` are embedded below following the
standard base64 algorithm they implement (RFC 4648 with `=` padding,
forgiving decode on well-formed input). -/

/-- The base64 alphabet used by `window.btoa` / `window.atob`. -/
def b64Alphabet : List Char :=
  "ABCDEFGHIJKLMNOPQRSTUVWXYZabcdefghijklmnopqrstuvwxyz0123456789+/".toList

/-- Character for a sextet value. -/
def b64Char (n : ℕ) : Char := b64Alphabet.getD n '='

/-- Sextet value of an alphabet character. -/
def b64Index (c : Char) : ℕ := b64Alphabet.findIdx (fun d => d == c)

/-- The platform's `window.btoa` on a binary string, viewed as a list of
byte values: standard base64 encoding with `=` padding. -/
def btoa : List ℕ → List Char
  | a :: b :: c :: rest =>
      b64Char (a / 4) :: b64Char (a % 4 * 16 + b / 16) ::
        b64Char (b % 16 * 4 + c / 64) :: b64Char (c % 64) :: btoa rest
  | [a, b] => [b64Char (a / 4), b64Char (a % 4 * 16 + b / 16), b64Char (b % 16 * 4), '=']
  | [a] => [b64Char (a / 4), b64Char (a % 4 * 16), '=', '=']
  | [] => []

/-- The platform's `window.atob`, restricted to the four-character groups
`window.btoa` emits, returning the decoded byte values. -/
def atob : List Char → List ℕ
  | c0 :: c1 :: c2 :: c3 :: rest =>
      if c2 = '=' then
        [b64Index c0 * 4 + b64Index c1 / 16]
      else if c3 = '=' then
        [b64Index c0 * 4 + b64Index c1 / 16, b64Index c1 % 16 * 16 + b64Index c2 / 4]
      else
        (b64Index c0 * 4 + b64Index c1 / 16) ::
          (b64Index c1 % 16 * 16 + b64Index c2 / 4) ::
          (b64Index c2 % 4 * 64 + b64Index c3) :: atob rest
  | _ => []

/-- `WebSocketManager.arrayToBase64` (src/js/websocket.js lines 471-497) on
a `Uint8Array` argument: the bytes are turned into a binary string and
passed to `window.btoa`. -/
def arrayToBase64 (bytes : List ℕ) : List Char := btoa bytes

/-- `WebSocketManager.base64ToUint8Array` (src/js/websocket.js lines
504-512): `window.atob` then a char-code read-back. -/
def base64ToUint8Array (base64 : List Char) : List ℕ := atob base64

/-- Little-endian byte pair of an int16 value, as produced by viewing an
`Int16Array`'s buffer through a `Uint8Array` (browsers are little-endian). -/
def int16LEBytes (v : ℤ) : List ℕ :=
  [((v % 65536).toNat) % 256, ((v % 65536).toNat) / 256]

/-- Byte view `new Uint8Array(buffer.buffer, ...)` of an `Int16Array`, used
by the `Int16Array` branch of `arrayToBase64`. -/
def int16ArrayBytes (buffer : List ℤ) : List ℕ :=
  (buffer.map int16LEBytes).flatten

/-! ## Capture callback (processorNode.onaudioprocess)

Modelled as a function of the recording flag and the captured frame,
returning the argument passed to the `onAudioData` callback (`none` when the
callback is not invoked). -/

/-- The `processorNode.onaudioprocess` callback of src/js/audioManager.js
lines 94-108: discard the frame when not recording, otherwise convert it
and invoke `onAudioData` unconditionally. -/
def onaudioprocess (isRecording : Bool) (inputData : List ℚ) : Option (List ℤ) :=
  if !isRecording then none
  else some (floatTo16BitPCM inputData)

/-- The `processorNode.onaudioprocess` callback of the alternate revision
src/unnamed/part_000 lines 90-109: discard the frame when not recording,
and additionally gate on `inputData.some(sample => Math.abs(sample) > 0.1)`
before converting and invoking `onAudioData`. -/
def onaudioprocessGated (isRecording : Bool) (inputData : List ℚ) : Option (List ℤ) :=
  if !isRecording then none
  else if ∃ sample ∈ inputData, (1 : ℚ) / 10 < |sample| then
    some (floatTo16BitPCM inputData)
  else none

/-! ## Playback queue (AudioManager.enqueueAudio / playNextAudioChunk /
clearAudioQueue)

State of the queue together with ghost instrumentation of the host audio
graph: `inFlight` counts buffer sources started and not yet ended (a started
source plays until its `onended` callback fires), `rendered` records, in
order, the frames handed to `source.start`, and `enqueued` records, in
order, the frames handed to `enqueueAudio`. -/

structure PQState where
  audioQueue : List ℕ
  isPlaying : Bool
  inFlight : ℕ
  rendered : List ℕ
  enqueued : List ℕ
deriving DecidableEq

/-- `AudioManager.playNextAudioChunk` (src/js/audioManager.js lines
186-235): if the queue is empty, set `isPlaying` to false; otherwise shift
the head frame, set `isPlaying`, and start a buffer source rendering it. -/
def playNextAudioChunk (s : PQState) : PQState :=
  match s.audioQueue with
  | [] => { s with isPlaying := false }
  | f :: rest =>
      { s with audioQueue := rest, isPlaying := true,
               inFlight := s.inFlight + 1, rendered := s.rendered ++ [f] }

/-- `AudioManager.enqueueAudio` (src/js/audioManager.js lines 174-181):
push the frame; if not playing, start draining. -/
def enqueueAudio (f : ℕ) (s : PQState) : PQState :=
  let s1 := { s with audioQueue := s.audioQueue ++ [f], enqueued := s.enqueued ++ [f] }
  if s1.isPlaying then s1 else playNextAudioChunk s1

/-- The `source.onended` completion callback installed by
`playNextAudioChunk`: the source stops playing and the next chunk is
drained. -/
def sourceOnEnded (s : PQState) : PQState :=
  playNextAudioChunk { s with inFlight := s.inFlight - 1 }

/-- `AudioManager.clearAudioQueue` (src/js/audioManager.js lines 240-243):
empty the queue and force `isPlaying` to false; an in-flight source keeps
playing. -/
def clearAudioQueue (s : PQState) : PQState :=
  { s with audioQueue := [], isPlaying := false }

/-- One event of the playback queue: an `enqueueAudio` call, an `onended`
completion of one of the in-flight sources, or a `clearAudioQueue` call. -/
inductive PQStep : PQState → PQState → Prop
  | enqueue (f : ℕ) (s : PQState) : PQStep s (enqueueAudio f s)
  | ended (s : PQState) (h : 0 < s.inFlight) : PQStep s (sourceOnEnded s)
  | clear (s : PQState) : PQStep s (clearAudioQueue s)

/-- The playback-queue events with `clearAudioQueue` excluded. -/
inductive PQStepNC : PQState → PQState → Prop
  | enqueue (f : ℕ) (s : PQState) : PQStepNC s (enqueueAudio f s)
  | ended (s : PQState) (h : 0 < s.inFlight) : PQStepNC s (sourceOnEnded s)

/-- Initial playback-queue state (the `AudioManager` constructor). -/
def PQInit : PQState := ⟨[], false, 0, [], []⟩

/-- Reachability under enqueue / render-complete / clear events. -/
def PQReachable (s : PQState) : Prop := Relation.ReflTransGen PQStep PQInit s

/-- Reachability under enqueue / render-complete events only. -/
def PQReachableNC (s : PQState) : Prop := Relation.ReflTransGen PQStepNC PQInit s

/-- Invariant of the playback queue under enqueue / render-complete events:
the number of in-flight renders matches the playing flag, the render
history followed by the queue is exactly the enqueue history, and the queue
is empty whenever the playing flag is down. -/
def PQInv (s : PQState) : Prop :=
  s.inFlight = (if s.isPlaying then 1 else 0) ∧
  s.rendered ++ s.audioQueue = s.enqueued ∧
  (s.isPlaying = false → s.audioQueue = [])

/-! ## WebSocketManager (src/js/websocket.js)

State of the manager, and each method as a function from state to an
effect record collecting the new state, the messages delivered to
`socket.send`, the call's return value, the log entries emitted, the
reconnect timer scheduled (its delay in milliseconds), and the user
callbacks invoked.  `socket.send` throwing is modelled by a `fail`
argument; the `event_id` string `evt_<Date.now()>_<n>` is modelled by its
process-unique counter component `n`. -/

inductive LogLevel
  | info
  | warning
  | error
  | success
deriving DecidableEq

inductive Modality
  | audio
  | text
deriving DecidableEq

/-- The `turn_detection` object sent by `handleSessionCreated`; `paddingMs`
and `silenceMs` model the JSON keys `prefix_padding_ms` and
`silence_duration_ms`. -/
structure TurnDetection where
  detectType : String
  threshold : ℚ
  paddingMs : ℕ
  silenceMs : ℕ
deriving DecidableEq

structure SessionConfig where
  modalities : List Modality
  voice : String
  inputAudioFormat : String
  outputAudioFormat : String
  turnDetection : TurnDetection
deriving DecidableEq

/-- Body of an outbound protocol message, by its `type` discriminator. -/
inductive MsgBody
  | sessionUpdate (config : SessionConfig)
  | inputAudioAppend (audio : List Char)
  | inputAudioCommit
  | inputAudioClear
  | responseCreate (modalities : List Modality)
  | responseCancel (responseId : String)
deriving DecidableEq

structure OutMsg where
  body : MsgBody
  eventId : ℕ
deriving DecidableEq

/-- The mutable fields of `WebSocketManager` (src/js/websocket.js lines
8-37); `hasSocket` models `this.socket !== null`. -/
structure WSState where
  isConnected : Bool
  isConnecting : Bool
  hasSocket : Bool
  eventId : ℕ
  reconnectAttempts : ℕ
  sessionId : Option String
  conversationId : Option String
  currentResponseId : Option String
  pendingAudioBuffers : ℕ
deriving DecidableEq

/-- `this.maxReconnectAttempts`. -/
def maxReconnectAttempts : ℕ := 5

/-- `this.reconnectDelay` in milliseconds. -/
def reconnectDelay : ℚ := 2000

/-- Observable effect of one `WebSocketManager` method call. -/
structure WSEffect where
  st : WSState
  sent : List OutMsg := []
  ret : Option ℕ := none
  logs : List LogLevel := []
  schedule : Option ℚ := none
  connectCb : Bool := false
  disconnectCb : Bool := false
  textCb : List (String × Bool) := []
  audioCb : List (Option (List ℕ) × Bool) := []
deriving DecidableEq

/-- `WebSocketManager.sendMessage` (src/js/websocket.js lines 336-360):
bail with an error log unless connected with a socket; stamp a fresh
event id; deliver to `socket.send` (which throws when `fail` is set,
caught and turned into a `null` return). -/
def sendMessage (fail : Bool) (body : MsgBody) (s : WSState) : WSEffect :=
  if !s.isConnected || !s.hasSocket then
    { st := s, logs := [.error] }
  else
    let s1 : WSState := { s with eventId := s.eventId + 1 }
    if fail then { st := s1, logs := [.error] }
    else { st := s1, sent := [⟨body, s1.eventId⟩], ret := some s1.eventId, logs := [.info] }

/-- `WebSocketManager.updateSession` (src/js/websocket.js lines 366-373). -/
def updateSession (fail : Bool) (config : SessionConfig) (s : WSState) : WSEffect :=
  sendMessage fail (.sessionUpdate config) s

/-- `WebSocketManager.appendAudioBuffer` (src/js/websocket.js lines
379-399): warn and return null when not connected; otherwise increment
`pendingAudioBuffers`, base64-encode the samples and send an append
message. -/
def appendAudioBuffer (fail : Bool) (audioData : List ℤ) (s : WSState) : WSEffect :=
  if !s.isConnected then
    { st := s, logs := [.warning] }
  else
    sendMessage fail (.inputAudioAppend (btoa (int16ArrayBytes audioData)))
      { s with pendingAudioBuffers := s.pendingAudioBuffers + 1 }

/-- `WebSocketManager.commitAudioBuffer` (src/js/websocket.js lines
404-419): warn and return null when `pendingAudioBuffers <= 0` (the counter
is a natural here, so the guard is equality with zero); otherwise reset the
counter and send a commit message. -/
def commitAudioBuffer (fail : Bool) (s : WSState) : WSEffect :=
  if s.pendingAudioBuffers = 0 then
    { st := s, logs := [.warning] }
  else
    let eff := sendMessage fail .inputAudioCommit { s with pendingAudioBuffers := 0 }
    { eff with logs := .info :: eff.logs }

/-- `WebSocketManager.clearAudioBuffer` (src/js/websocket.js lines
424-433). -/
def clearAudioBuffer (fail : Bool) (s : WSState) : WSEffect :=
  sendMessage fail .inputAudioClear { s with pendingAudioBuffers := 0 }

/-- `WebSocketManager.createResponse` (src/js/websocket.js lines 438-447). -/
def createResponse (fail : Bool) (s : WSState) : WSEffect :=
  sendMessage fail (.responseCreate [.audio, .text]) s

/-- `WebSocketManager.cancelResponse` (src/js/websocket.js lines 452-464). -/
def cancelResponse (fail : Bool) (s : WSState) : WSEffect :=
  match s.currentResponseId with
  | none => { st := s, logs := [.warning] }
  | some rid => sendMessage fail (.responseCancel rid) s

/-- `WebSocketManager.connect` (src/js/websocket.js lines 42-65): warn when
already connected or connecting; otherwise set `isConnecting` and open a
socket (`ctorFails` models the `new WebSocket` constructor throwing, which
is caught and clears `isConnecting` again). -/
def connect (ctorFails : Bool) (s : WSState) : WSEffect :=
  if s.isConnected || s.isConnecting then
    { st := s, logs := [.warning] }
  else if ctorFails then
    { st := { s with isConnecting := false }, logs := [.info, .error] }
  else
    { st := { s with isConnecting := true, hasSocket := true }, logs := [.info] }

/-- `WebSocketManager.disconnect` (src/js/websocket.js lines 70-104): warn
when not connected and without a socket; otherwise detach the handlers,
close and drop the socket, clear the connection flags, the session
identity and the pending counter, and fire `onDisconnect`. -/
def disconnect (s : WSState) : WSEffect :=
  if !s.isConnected && !s.hasSocket then
    { st := s, logs := [.warning] }
  else
    let s1 : WSState :=
      { s with hasSocket := false, isConnected := false, isConnecting := false,
               sessionId := none, conversationId := none, currentResponseId := none,
               pendingAudioBuffers := 0 }
    { st := s1, logs := [.info], disconnectCb := true }

/-- `WebSocketManager.handleOpen` (src/js/websocket.js lines 109-120):
mark connected, reset the reconnect attempt counter to zero, fire
`onConnect`. -/
def handleOpen (s : WSState) : WSEffect :=
  { st := { s with isConnected := true, isConnecting := false, reconnectAttempts := 0 },
    logs := [.success], connectCb := true }

/-- `WebSocketManager.attemptReconnect` (src/js/websocket.js lines
163-179): increment the attempt counter and schedule one retry after
`reconnectDelay * 1.5 ^ (reconnectAttempts - 1)` milliseconds (the powers
involved are computed exactly by float64 arithmetic). -/
def attemptReconnect (s : WSState) : WSEffect :=
  let s1 : WSState := { s with reconnectAttempts := s.reconnectAttempts + 1 }
  { st := s1, logs := [.info],
    schedule := some (reconnectDelay * (3 / 2 : ℚ) ^ (s1.reconnectAttempts - 1)) }

/-- Body of the `setTimeout` callback scheduled by `attemptReconnect`: call
`connect()` unless a connection is already open or in flight. -/
def reconnectTimerFire (ctorFails : Bool) (s : WSState) : WSEffect :=
  if !s.isConnected && !s.isConnecting then connect ctorFails s
  else { st := s }

/-- `WebSocketManager.handleClose` (src/js/websocket.js lines 126-149):
warn if the close was observed while connected, clear the connection
flags; then reconnect when the close code is not 1000 and the attempt
counter is below the ceiling, otherwise fire `onDisconnect`. -/
def handleClose (code : ℕ) (s : WSState) : WSEffect :=
  let logs1 : List LogLevel := if s.isConnected then [.warning] else []
  let s1 : WSState := { s with isConnected := false, isConnecting := false }
  if code ≠ 1000 ∧ s1.reconnectAttempts < maxReconnectAttempts then
    let eff := attemptReconnect s1
    { eff with logs := logs1 ++ eff.logs }
  else
    { st := s1, logs := logs1, disconnectCb := true }

/-- The session configuration sent by `handleSessionCreated`
(src/js/websocket.js lines 293-304). -/
def sessionCreatedConfig : SessionConfig :=
  { modalities := [.audio, .text], voice := "alloy",
    inputAudioFormat := "pcm16", outputAudioFormat := "pcm16",
    turnDetection :=
      { detectType := "semantic_vad", threshold := 1 / 2, paddingMs := 300, silenceMs := 700 } }

/-- `WebSocketManager.handleSessionCreated` (src/js/websocket.js lines
288-305): store the session id, then immediately send the session
configuration update. -/
def handleSessionCreated (fail : Bool) (sid : String) (s : WSState) : WSEffect :=
  let eff := updateSession fail sessionCreatedConfig { s with sessionId := some sid }
  { eff with logs := .success :: eff.logs }

/-- A parsed inbound message, by its `type` discriminator; `other` stands
for every unrecognized type. -/
inductive InMsg
  | sessionCreated (sessionId : String)
  | conversationCreated (conversationId : String)
  | inputAudioCommitted (itemId : String)
  | responseCreated (responseId : String)
  | textDelta (delta : String)
  | textDone (text : String)
  | audioDelta (delta : Option (List Char))
  | audioDone
  | errorMsg
  | other
deriving DecidableEq

/-- `WebSocketManager.handleMessage` (src/js/websocket.js lines 215-282),
on an already-parsed message, with the `onTextResponse` / `onAudioResponse`
callbacks registered; `textCb` and `audioCb` record their invocations. -/
def handleMessage (fail : Bool) (m : InMsg) (s : WSState) : WSEffect :=
  match m with
  | .sessionCreated sid => handleSessionCreated fail sid s
  | .conversationCreated cid =>
      { st := { s with conversationId := some cid }, logs := [.info] }
  | .inputAudioCommitted _ => { st := s, logs := [.info] }
  | .responseCreated rid =>
      { st := { s with currentResponseId := some rid }, logs := [.info] }
  | .textDelta d => { st := s, textCb := [(d, false)] }
  | .textDone t => { st := s, textCb := [(t, true)] }
  | .audioDelta none => { st := s }
  | .audioDelta (some b64) =>
      { st := s, audioCb := [(some (base64ToUint8Array b64), false)] }
  | .audioDone => { st := s, audioCb := [(none, true)] }
  | .errorMsg => { st := s, logs := [.error] }
  | .other => { st := s }

/-- Iteration of successful `appendAudioBuffer` calls, threading the state
and collecting the sent messages. -/
def appendManyRun : List (List ℤ) → WSState → WSState × List OutMsg
  | [], s => (s, [])
  | d :: rest, s =>
      let eff := appendAudioBuffer false d s
      let r := appendManyRun rest eff.st
      (r.1, eff.sent ++ r.2)

/-- A connected state with a live socket, used to instantiate theorems. -/
def wsTestState : WSState :=
  ⟨true, false, true, 0, 0, none, none, none, 0⟩

/-! ## Codec lemmas -/

lemma clamp_le (v : ℚ) : clamp v ≤ 1 := by
  unfold clamp
  exact max_le (by norm_num) (min_le_left _ _)

lemma le_clamp (v : ℚ) : -1 ≤ clamp v := le_max_left _ _

lemma toInt16_eq_self {n : ℤ} (h1 : -32768 ≤ n) (h2 : n ≤ 32767) : toInt16 n = n := by
  unfold toInt16
  omega

lemma jsTrunc_lb (q : ℚ) (z : ℤ) (h : (z : ℚ) ≤ q) : z ≤ jsTrunc q := by
  unfold jsTrunc
  split_ifs
  · exact Int.le_floor.2 h
  · exact_mod_cast le_trans h (Int.le_ceil q)

lemma jsTrunc_ub (q : ℚ) (z : ℤ) (h : q ≤ (z : ℚ)) : jsTrunc q ≤ z := by
  unfold jsTrunc
  split_ifs
  · exact_mod_cast le_trans (Int.floor_le q) h
  · exact Int.ceil_le.2 h

lemma jsTrunc_scale_lb (v : ℚ) :
    -32768 ≤ jsTrunc (clamp v * (if clamp v < 0 then 32768 else 32767)) := by
  have h1 := le_clamp v
  apply jsTrunc_lb
  split_ifs with hneg
  · push_cast
    nlinarith
  · push_cast
    nlinarith [not_lt.1 hneg]

lemma jsTrunc_scale_ub (v : ℚ) :
    jsTrunc (clamp v * (if clamp v < 0 then 32768 else 32767)) ≤ 32767 := by
  have h2 := clamp_le v
  apply jsTrunc_ub
  split_ifs with hneg
  · push_cast
    nlinarith
  · push_cast
    nlinarith [not_lt.1 hneg]

lemma pcmOfSample_eq_trunc (v : ℚ) :
    pcmOfSample v = jsTrunc (clamp v * (if clamp v < 0 then 32768 else 32767)) := by
  unfold pcmOfSample
  exact toInt16_eq_self (jsTrunc_scale_lb v) (jsTrunc_scale_ub v)

lemma pcmOfSample_zero : pcmOfSample 0 = 0 := by
  rw [pcmOfSample_eq_trunc]
  have hc : clamp 0 = 0 := by unfold clamp; norm_num
  rw [hc]
  norm_num [jsTrunc]

lemma floatOfPcm_zero : floatOfPcm 0 = 0 := by
  norm_num [floatOfPcm]

lemma roundtrip_sample (v : ℚ) : |floatOfPcm (pcmOfSample v) - clamp v| ≤ 1 / 32767 := by
  rw [pcmOfSample_eq_trunc]
  have h1 := le_clamp v
  have h2 := clamp_le v
  by_cases hs : clamp v < 0
  · rw [if_pos hs]
    have ht : ¬ (0 : ℚ) ≤ clamp v * 32768 := by nlinarith
    rw [jsTrunc, if_neg ht]
    have hle := Int.le_ceil (clamp v * 32768)
    have hlt := Int.ceil_lt_add_one (clamp v * 32768)
    by_cases hn : ⌈clamp v * 32768⌉ < 0
    · rw [floatOfPcm, if_pos hn]
      have hn' : ((⌈clamp v * 32768⌉ : ℚ)) < 0 := by exact_mod_cast hn
      rw [abs_le]
      constructor <;> nlinarith
    · have hn0 : ⌈clamp v * 32768⌉ = 0 := by
        have : clamp v * 32768 ≤ ((0 : ℤ) : ℚ) := by push_cast; nlinarith
        have := Int.ceil_le_ceil this
        rw [Int.ceil_intCast] at this
        omega
      rw [hn0, floatOfPcm]
      norm_num
      have : ((0 : ℚ)) < clamp v * 32768 + 1 := by
        have := hlt
        rw [hn0] at this
        push_cast at this
        linarith
      rw [abs_le]
      constructor <;> nlinarith
  · rw [if_neg hs]
    push_neg at hs
    have ht : (0 : ℚ) ≤ clamp v * 32767 := by nlinarith
    rw [jsTrunc, if_pos ht]
    have hfl := Int.floor_le (clamp v * 32767)
    have hfl1 := Int.lt_floor_add_one (clamp v * 32767)
    have hnn : ¬ ⌊clamp v * 32767⌋ < 0 := by
      have : 0 ≤ ⌊clamp v * 32767⌋ := Int.floor_nonneg.2 ht
      omega
    rw [floatOfPcm, if_neg hnn]
    rw [abs_le]
    constructor <;> nlinarith

lemma getD_map {α β : Type} (f : α → β) (l : List α) (i : ℕ) (d : α) :
    (l.map f).getD i (f d) = f (l.getD i d) := by
  induction l generalizing i with
  | nil => simp [List.getD]
  | cons a t ih =>
    cases i with
    | zero => simp [List.getD]
    | succ j => exact ih j

lemma roundtrip_getD (x : List ℚ) (i : ℕ) :
    (int16ToFloat32 (floatTo16BitPCM x)).getD i 0 = floatOfPcm (pcmOfSample (x.getD i 0)) := by
  unfold int16ToFloat32 floatTo16BitPCM
  rw [List.map_map]
  have h0 : (floatOfPcm ∘ pcmOfSample) 0 = 0 := by
    simp [Function.comp, pcmOfSample_zero, floatOfPcm_zero]
  calc (x.map (floatOfPcm ∘ pcmOfSample)).getD i 0
      = (x.map (floatOfPcm ∘ pcmOfSample)).getD i ((floatOfPcm ∘ pcmOfSample) 0) := by rw [h0]
    _ = (floatOfPcm ∘ pcmOfSample) (x.getD i 0) := getD_map _ x i 0
    _ = floatOfPcm (pcmOfSample (x.getD i 0)) := rfl

/-- C6 (amended): for every sample list, each element of the round trip
`int16ToFloat32 (floatTo16BitPCM x)` differs from the corresponding clamped
input element by at most one quantization step of the applicable scale,
namely at most 1/32767. -/
theorem C6_pcm_roundtrip_step (x : List ℚ) (i : ℕ) (_hi : i < x.length) :
    |(int16ToFloat32 (floatTo16BitPCM x)).getD i 0 - clamp (x.getD i 0)| ≤ 1 / 32767 := by
  rw [roundtrip_getD]
  exact roundtrip_sample _

/-- Witness for C6: the bound applied to a concrete one-sample list. -/
theorem C6_pcm_roundtrip_step_witness :
    0 < ([(3 : ℚ) / 5] : List ℚ).length ∧
    |(int16ToFloat32 (floatTo16BitPCM [(3 : ℚ) / 5])).getD 0 0 -
        clamp (([(3 : ℚ) / 5] : List ℚ).getD 0 0)| ≤ 1 / 32767 :=
  ⟨by norm_num, C6_pcm_roundtrip_step [(3 : ℚ) / 5] 0 (by norm_num)⟩

/-- Counterexample for C6 as stated: at the sample 131071/2147418112 the
round-trip error exceeds 1/32768 (the code scales non-negative samples by
32767, whose quantization step 1/32767 is larger than 1/32768). -/
theorem C6_counterexample :
    ¬ |(int16ToFloat32 (floatTo16BitPCM [(131071 : ℚ) / 2147418112])).getD 0 0 -
        clamp (([(131071 : ℚ) / 2147418112] : List ℚ).getD 0 0)| ≤ 1 / 32768 := by
  have hx : ([(131071 : ℚ) / 2147418112] : List ℚ).getD 0 0 = (131071 : ℚ) / 2147418112 := rfl
  have hc : clamp ((131071 : ℚ) / 2147418112) = (131071 : ℚ) / 2147418112 := by
    unfold clamp
    rw [min_eq_right (by norm_num), max_eq_right (by norm_num)]
  have hp : pcmOfSample ((131071 : ℚ) / 2147418112) = 1 := by
    rw [pcmOfSample_eq_trunc, hc, if_neg (by norm_num)]
    unfold jsTrunc
    rw [if_pos (by norm_num)]
    have he : (131071 : ℚ) / 2147418112 * 32767 = 131071 / 65536 := by norm_num
    rw [he]
    rw [Int.floor_eq_iff]
    norm_num
  have hg : (int16ToFloat32 (floatTo16BitPCM [(131071 : ℚ) / 2147418112])).getD 0 0 =
      floatOfPcm 1 := by
    rw [roundtrip_getD, hx, hp]
  rw [hg, hx, hc]
  have hf : floatOfPcm 1 = 1 / 32767 := by
    unfold floatOfPcm
    rw [if_neg (by norm_num)]
    norm_num
  rw [hf, abs_le]
  intro h
  have := h.1
  norm_num at this

/-- C8: floatTo16BitPCM is length-preserving and each output element is
exactly the clamped input scaled by 32768 (negative) or 32767
(non-negative) and truncated toward zero, already inside the int16 range,
so the final ToInt16 wrap never changes it. -/
theorem C8_floatTo16BitPCM_spec (x : List ℚ) :
    (floatTo16BitPCM x).length = x.length ∧
    ∀ i, i < x.length →
      (floatTo16BitPCM x).getD i 0 =
          jsTrunc (clamp (x.getD i 0) * (if clamp (x.getD i 0) < 0 then 32768 else 32767)) ∧
      -32768 ≤ (floatTo16BitPCM x).getD i 0 ∧ (floatTo16BitPCM x).getD i 0 ≤ 32767 := by
  have hlen : (floatTo16BitPCM x).length = x.length := by
    unfold floatTo16BitPCM
    exact List.length_map _ _
  refine ⟨hlen, fun i hi => ?_⟩
  have hget : (floatTo16BitPCM x).getD i 0 = pcmOfSample (x.getD i 0) := by
    unfold floatTo16BitPCM
    calc (x.map pcmOfSample).getD i 0
        = (x.map pcmOfSample).getD i (pcmOfSample 0) := by rw [pcmOfSample_zero]
      _ = pcmOfSample (x.getD i 0) := getD_map _ x i 0
  rw [hget, pcmOfSample_eq_trunc]
  exact ⟨rfl, jsTrunc_scale_lb _, jsTrunc_scale_ub _⟩

/-- Witness for C8: the characterization applied to a concrete list. -/
theorem C8_floatTo16BitPCM_spec_witness :
    0 < ([(3 : ℚ) / 2] : List ℚ).length ∧
    ((floatTo16BitPCM [(3 : ℚ) / 2]).getD 0 0 =
        jsTrunc (clamp (([(3 : ℚ) / 2] : List ℚ).getD 0 0) *
          (if clamp (([(3 : ℚ) / 2] : List ℚ).getD 0 0) < 0 then 32768 else 32767)) ∧
      -32768 ≤ (floatTo16BitPCM [(3 : ℚ) / 2]).getD 0 0 ∧
      (floatTo16BitPCM [(3 : ℚ) / 2]).getD 0 0 ≤ 32767) :=
  ⟨by norm_num, (C8_floatTo16BitPCM_spec [(3 : ℚ) / 2]).2 0 (by norm_num)⟩

/-! ## Base64 lemmas -/

lemma b64Index_b64Char : ∀ n, n < 64 → b64Index (b64Char n) = n := by decide

lemma b64Char_ne_pad : ∀ n, n < 64 → b64Char n ≠ '=' := by decide

/-- Recursion principle following btoa's three-byte grouping. -/
theorem chunk3Rec (P : List ℕ → Prop) (h0 : P []) (h1 : ∀ a, P [a]) (h2 : ∀ a b, P [a, b])
    (h3 : ∀ a b c rest, P rest → P (a :: b :: c :: rest)) : ∀ l, P l
  | [] => h0
  | [a] => h1 a
  | [a, b] => h2 a b
  | a :: b :: c :: rest => h3 a b c rest (chunk3Rec P h0 h1 h2 h3 rest)

lemma atob_btoa_one (a : ℕ) (ha : a < 256) : atob (btoa [a]) = [a] := by
  have e0 : btoa [a] = [b64Char (a / 4), b64Char (a % 4 * 16), '=', '='] := by
    simp [btoa]
  rw [e0]
  unfold atob
  rw [if_pos rfl]
  rw [b64Index_b64Char _ (by omega), b64Index_b64Char _ (by omega)]
  have : a / 4 * 4 + a % 4 * 16 / 16 = a := by omega
  rw [this]

lemma atob_btoa_two (a b : ℕ) (ha : a < 256) (hb : b < 256) : atob (btoa [a, b]) = [a, b] := by
  have e0 : btoa [a, b] =
      [b64Char (a / 4), b64Char (a % 4 * 16 + b / 16), b64Char (b % 16 * 4), '='] := by
    simp [btoa]
  rw [e0]
  unfold atob
  rw [if_neg (b64Char_ne_pad _ (by omega)), if_pos rfl]
  rw [b64Index_b64Char _ (by omega), b64Index_b64Char _ (by omega),
    b64Index_b64Char _ (by omega)]
  have e1 : a / 4 * 4 + (a % 4 * 16 + b / 16) / 16 = a := by omega
  have e2 : (a % 4 * 16 + b / 16) % 16 * 16 + b % 16 * 4 / 4 = b := by omega
  rw [e1, e2]

lemma atob_btoa_cons (a b c : ℕ) (rest : List ℕ) (ha : a < 256) (hb : b < 256) (hc : c < 256)
    (ih : atob (btoa rest) = rest) : atob (btoa (a :: b :: c :: rest)) = a :: b :: c :: rest := by
  have e0 : btoa (a :: b :: c :: rest) =
      b64Char (a / 4) :: b64Char (a % 4 * 16 + b / 16) ::
        b64Char (b % 16 * 4 + c / 64) :: b64Char (c % 64) :: btoa rest := by
    simp [btoa]
  rw [e0]
  unfold atob
  rw [if_neg (b64Char_ne_pad _ (by omega)), if_neg (b64Char_ne_pad _ (by omega))]
  rw [b64Index_b64Char _ (by omega), b64Index_b64Char _ (by omega),
    b64Index_b64Char _ (by omega), b64Index_b64Char _ (by omega)]
  have e1 : a / 4 * 4 + (a % 4 * 16 + b / 16) / 16 = a := by omega
  have e2 : (a % 4 * 16 + b / 16) % 16 * 16 + (b % 16 * 4 + c / 64) / 4 = b := by omega
  have e3 : (b % 16 * 4 + c / 64) % 4 * 64 + c % 64 = c := by omega
  rw [e1, e2, e3, ih]

/-- C7: decoding the transport text encoding of a byte sequence yields the
byte sequence back: `base64ToUint8Array (arrayToBase64 b) = b` for every
list of byte values. -/
theorem C7_base64_roundtrip (b : List ℕ) (hb : ∀ x ∈ b, x < 256) :
    base64ToUint8Array (arrayToBase64 b) = b := by
  unfold base64ToUint8Array arrayToBase64
  induction b using chunk3Rec with
  | h0 => rfl
  | h1 a => exact atob_btoa_one a (hb a (by simp))
  | h2 a c => exact atob_btoa_two a c (hb a (by simp)) (hb c (by simp))
  | h3 a c d rest ih =>
    exact atob_btoa_cons a c d rest (hb a (by simp)) (hb c (by simp)) (hb d (by simp))
      (ih fun x hx => hb x (by simp [hx]))

/-- Witness for C7: the round trip on a concrete byte list. -/
theorem C7_base64_roundtrip_witness :
    (∀ x ∈ ([0, 255, 100, 7] : List ℕ), x < 256) ∧
    base64ToUint8Array (arrayToBase64 [0, 255, 100, 7]) = [0, 255, 100, 7] :=
  ⟨by decide, C7_base64_roundtrip [0, 255, 100, 7] (by decide)⟩

/-! ## Playback queue lemmas -/

lemma PQInv_init : PQInv PQInit := by
  refine ⟨rfl, rfl, fun _ => rfl⟩

lemma PQInv_enqueue {s : PQState} (hI : PQInv s) (f : ℕ) : PQInv (enqueueAudio f s) := by
  obtain ⟨h1, h2, h3⟩ := hI
  unfold enqueueAudio
  by_cases hp : s.isPlaying
  · rw [if_pos hp]
    refine ⟨by simpa [hp] using h1, ?_, by simp [hp]⟩
    simp only
    rw [← List.append_assoc, h2]
  · rw [if_neg (by simpa using hp)]
    have hq : s.audioQueue = [] := h3 (by simpa using hp)
    unfold playNextAudioChunk
    simp only [hq, List.nil_append]
    refine ⟨?_, ?_, by simp⟩
    · simp [h1, hp]
    · simp only
      rw [← h2, hq]
      simp

lemma PQInv_ended {s : PQState} (hI : PQInv s) (hf : 0 < s.inFlight) :
    PQInv (sourceOnEnded s) := by
  obtain ⟨h1, h2, h3⟩ := hI
  have hp : s.isPlaying = true := by
    by_contra hp
    rw [h1, if_neg hp] at hf
    omega
  have h1' : s.inFlight = 1 := by rw [h1, if_pos hp]
  unfold sourceOnEnded playNextAudioChunk
  cases hq : s.audioQueue with
  | nil =>
    refine ⟨?_, ?_, fun _ => rfl⟩
    · simp [h1']
    · simp only
      rw [← h2, hq]
  | cons f rest =>
    refine ⟨?_, ?_, by simp⟩
    · simp [h1']
    · simp only
      rw [← h2, hq]
      simp

lemma PQInv_reachableNC {s : PQState} (h : PQReachableNC s) : PQInv s := by
  unfold PQReachableNC at h
  induction h with
  | refl => exact PQInv_init
  | tail hab hbc ih =>
    cases hbc with
    | enqueue f t => exact PQInv_enqueue ih f
    | ended t hf => exact PQInv_ended ih hf

/-- C3 (amended): under the enqueue and render-complete events alone (no
`clearAudioQueue`), every reachable state of the playback queue has at most
one render in flight (renders never overlap, and a new render starts only
after the previous one's completion callback) and the sequence of started
renders followed by the waiting queue is exactly the sequence of enqueued
frames in order (strict FIFO). -/
theorem C3_fifo_no_overlap (s : PQState) (h : PQReachableNC s) :
    s.inFlight ≤ 1 ∧ s.rendered ++ s.audioQueue = s.enqueued := by
  obtain ⟨h1, h2, _⟩ := PQInv_reachableNC h
  refine ⟨?_, h2⟩
  rw [h1]
  split <;> omega

/-- Witness for C3: the property at the initial state. -/
theorem C3_fifo_no_overlap_witness :
    PQReachableNC PQInit ∧
    (PQInit.inFlight ≤ 1 ∧ PQInit.rendered ++ PQInit.audioQueue = PQInit.enqueued) :=
  ⟨Relation.ReflTransGen.refl, C3_fifo_no_overlap PQInit Relation.ReflTransGen.refl⟩

/-- Counterexample for C3 as stated: with `clearAudioQueue` included in the
step relation, the state reached by enqueue frame 1 (starting its render),
clear during that render, enqueue frame 2 is reachable and has two renders
in flight at once: the claimed no-overlap property fails for the
enqueue / render-complete / clear step relation. -/
theorem C3_counterexample :
    PQReachable (enqueueAudio 2 (clearAudioQueue (enqueueAudio 1 PQInit))) ∧
    2 ≤ (enqueueAudio 2 (clearAudioQueue (enqueueAudio 1 PQInit))).inFlight :=
  ⟨Relation.ReflTransGen.tail
      (Relation.ReflTransGen.tail
        (Relation.ReflTransGen.tail Relation.ReflTransGen.refl (PQStep.enqueue 1 PQInit))
        (PQStep.clear (enqueueAudio 1 PQInit)))
      (PQStep.enqueue 2 (clearAudioQueue (enqueueAudio 1 PQInit))),
    by decide⟩

/-! ## Capture callback theorems -/

/-- C5 (amended): which frames reach `onAudioData` depends on the revision.
While capturing, the src/js/audioManager.js callback converts and forwards
every frame regardless of its sample amplitudes, and the
src/unnamed/part_000 revision forwards the converted frame exactly when
some sample exceeds 0.1 in absolute value; while not capturing, both
revisions discard every frame without invoking the notification. -/
theorem C5_capture_forwarding :
    (∀ input : List ℚ, onaudioprocess true input = some (floatTo16BitPCM input)) ∧
    (∀ input : List ℚ, onaudioprocess false input = none) ∧
    (∀ input : List ℚ, onaudioprocessGated false input = none) ∧
    (∀ input : List ℚ, (∃ sample ∈ input, (1 : ℚ) / 10 < |sample|) →
      onaudioprocessGated true input = some (floatTo16BitPCM input)) ∧
    (∀ input : List ℚ, (∀ sample ∈ input, |sample| ≤ (1 : ℚ) / 10) →
      onaudioprocessGated true input = none) := by
  refine ⟨fun input => rfl, fun input => rfl, fun input => rfl, ?_, ?_⟩
  · intro input h
    simp only [onaudioprocessGated, Bool.not_true, Bool.false_eq_true, if_false]
    rw [if_pos h]
  · intro input h
    have hn : ¬ ∃ sample ∈ input, (1 : ℚ) / 10 < |sample| := by
      push_neg
      exact h
    simp only [onaudioprocessGated, Bool.not_true, Bool.false_eq_true, if_false]
    rw [if_neg hn]

/-- Witness for C5: a loud frame is forwarded by both revisions. -/
theorem C5_capture_forwarding_witness :
    ((∃ sample ∈ ([(1 : ℚ) / 5] : List ℚ), (1 : ℚ) / 10 < |sample|) ∧
      onaudioprocessGated true [(1 : ℚ) / 5] = some (floatTo16BitPCM [(1 : ℚ) / 5])) ∧
    onaudioprocess true [(1 : ℚ) / 5] = some (floatTo16BitPCM [(1 : ℚ) / 5]) :=
  ⟨⟨⟨1 / 5, List.mem_singleton.2 rfl, by rw [abs_of_nonneg (by norm_num)]; norm_num⟩,
      C5_capture_forwarding.2.2.2.1 [(1 : ℚ) / 5]
        ⟨1 / 5, List.mem_singleton.2 rfl, by rw [abs_of_nonneg (by norm_num)]; norm_num⟩⟩,
    C5_capture_forwarding.1 [(1 : ℚ) / 5]⟩

/-- Counterexample for C5 as stated: in the src/unnamed/part_000 revision
cited by the claim, a quiet frame (every |sample| at most 0.1) delivered
while capturing is dropped: `onAudioData` is not invoked, so forwarding is
not unconditional in amplitude across the cited code. -/
theorem C5_counterexample : onaudioprocessGated true [(1 : ℚ) / 100] = none := by
  have hn : ¬ ∃ sample ∈ ([(1 : ℚ) / 100] : List ℚ), (1 : ℚ) / 10 < |sample| := by
    push_neg
    intro sample hs
    rw [List.mem_singleton] at hs
    subst hs
    rw [abs_of_nonneg (by norm_num)]
    norm_num
  simp only [onaudioprocessGated, Bool.not_true, Bool.false_eq_true, if_false]
  rw [if_neg hn]

/-! ## WebSocketManager lemmas -/

lemma sendMessage_attempts (fail : Bool) (body : MsgBody) (s : WSState) :
    (sendMessage fail body s).st.reconnectAttempts = s.reconnectAttempts := by
  unfold sendMessage
  split_ifs <;> rfl

lemma appendAudioBuffer_st (fail : Bool) (d : List ℤ) (s : WSState) (h : s.isConnected = true) :
    (appendAudioBuffer fail d s).st.isConnected = true ∧
    (appendAudioBuffer fail d s).st.hasSocket = s.hasSocket ∧
    (appendAudioBuffer fail d s).st.pendingAudioBuffers = s.pendingAudioBuffers + 1 ∧
    ∀ m ∈ (appendAudioBuffer fail d s).sent, ∃ a, m.body = MsgBody.inputAudioAppend a := by
  cases hs : s.hasSocket <;> cases fail <;>
    simp [appendAudioBuffer, sendMessage, h, hs]

lemma appendManyRun_spec (datas : List (List ℤ)) (s : WSState) (h : s.isConnected = true) :
    (appendManyRun datas s).1.isConnected = true ∧
    (appendManyRun datas s).1.hasSocket = s.hasSocket ∧
    (appendManyRun datas s).1.pendingAudioBuffers = s.pendingAudioBuffers + datas.length ∧
    ∀ m ∈ (appendManyRun datas s).2, ∃ a, m.body = MsgBody.inputAudioAppend a := by
  induction datas generalizing s with
  | nil => simp [appendManyRun, h]
  | cons d rest ih =>
    obtain ⟨h1, h2, h3, h4⟩ := appendAudioBuffer_st false d s h
    obtain ⟨g1, g2, g3, g4⟩ := ih (appendAudioBuffer false d s).st h1
    refine ⟨?_, ?_, ?_, ?_⟩
    · simpa [appendManyRun] using g1
    · simp only [appendManyRun]
      rw [g2, h2]
    · simp only [appendManyRun, List.length_cons]
      rw [g3, h3]
      ring
    · intro m hm
      simp only [appendManyRun, List.mem_append] at hm
      rcases hm with hm | hm
      · exact h4 m hm
      · exact g4 m hm

/-! ## WebSocketManager theorems -/

/-- C1: starting from a connected state with a live socket, appending any
non-empty sequence of audio frames and then committing sends exactly one
message from the commit call, a commit message, and resets the pending
counter to zero; the append phase itself sends only append messages.  From
any state with the pending counter at zero, a commit sends nothing, leaves
the state unchanged, and reports a (non-fatal) warning. -/
theorem C1_commit_behavior (s : WSState) (datas : List (List ℤ))
    (hc : s.isConnected = true) (hsock : s.hasSocket = true) (hN : datas ≠ []) :
    (commitAudioBuffer false (appendManyRun datas s).1).sent.map OutMsg.body =
        [MsgBody.inputAudioCommit] ∧
    (commitAudioBuffer false (appendManyRun datas s).1).st.pendingAudioBuffers = 0 ∧
    (∀ m ∈ (appendManyRun datas s).2, ∃ a, m.body = MsgBody.inputAudioAppend a) ∧
    ∀ s0 : WSState, s0.pendingAudioBuffers = 0 →
      (commitAudioBuffer false s0).sent = [] ∧
      (commitAudioBuffer false s0).st = s0 ∧
      (commitAudioBuffer false s0).logs = [LogLevel.warning] := by
  obtain ⟨h1, h2, h3, h4⟩ := appendManyRun_spec datas s hc
  have hsock2 : (appendManyRun datas s).1.hasSocket = true := h2.trans hsock
  have hlen : 0 < datas.length := List.length_pos.2 hN
  have hne : ¬ (appendManyRun datas s).1.pendingAudioBuffers = 0 := by omega
  refine ⟨?_, ?_, h4, ?_⟩
  · simp [commitAudioBuffer, sendMessage, h1, hsock2, hne]
  · simp [commitAudioBuffer, sendMessage, h1, hsock2, hne]
  · intro s0 h0
    simp [commitAudioBuffer, h0]

/-- Witness for C1: one append then a commit from the test state. -/
theorem C1_commit_behavior_witness :
    (wsTestState.isConnected = true ∧ wsTestState.hasSocket = true ∧
      ([[0]] : List (List ℤ)) ≠ []) ∧
    (commitAudioBuffer false (appendManyRun [[0]] wsTestState).1).st.pendingAudioBuffers = 0 :=
  ⟨⟨rfl, rfl, by simp⟩, (C1_commit_behavior wsTestState [[0]] rfl rfl (by simp)).2.1⟩

/-- C2: on an unintentional close (code other than 1000) below the attempt
ceiling, `handleClose` increments the attempt counter, schedules exactly
one retry after `2000 * 1.5 ^ (newAttempt - 1)` milliseconds (4500 ms for
the third drop) and does not fire `onDisconnect`; at or above the ceiling
it schedules nothing and fires `onDisconnect`; and the scheduled timer
skips the retry when a connection is already open or in flight when the
delay elapses, calling `connect()` otherwise. -/
theorem C2_reconnect_policy (s : WSState) (code : ℕ) (hcode : code ≠ 1000) :
    (s.reconnectAttempts < maxReconnectAttempts →
      (handleClose code s).schedule =
          some (reconnectDelay * (3 / 2 : ℚ) ^ s.reconnectAttempts) ∧
      (handleClose code s).st.reconnectAttempts = s.reconnectAttempts + 1 ∧
      (handleClose code s).disconnectCb = false) ∧
    (s.reconnectAttempts = 2 → (handleClose code s).schedule = some 4500) ∧
    (¬ s.reconnectAttempts < maxReconnectAttempts →
      (handleClose code s).schedule = none ∧ (handleClose code s).disconnectCb = true) ∧
    (∀ (cf : Bool) (t : WSState), t.isConnected = true ∨ t.isConnecting = true →
      reconnectTimerFire cf t = { st := t }) ∧
    (∀ (cf : Bool) (t : WSState), t.isConnected = false → t.isConnecting = false →
      reconnectTimerFire cf t = connect cf t) := by
  refine ⟨?_, ?_, ?_, ?_, ?_⟩
  · intro hlt
    simp [handleClose, attemptReconnect, hcode, hlt]
  · intro h2
    norm_num [handleClose, attemptReconnect, hcode, h2, maxReconnectAttempts, reconnectDelay]
  · intro hge
    simp [handleClose, hge]
  · rintro cf t (h | h) <;> simp [reconnectTimerFire, h]
  · intro cf t ht1 ht2
    simp [reconnectTimerFire, ht1, ht2]

/-- Witness for C2: the first unintentional drop from the test state
schedules one retry with the backoff delay. -/
theorem C2_reconnect_policy_witness :
    (1006 : ℕ) ≠ 1000 ∧ wsTestState.reconnectAttempts < maxReconnectAttempts ∧
    (handleClose 1006 wsTestState).schedule =
      some (reconnectDelay * (3 / 2 : ℚ) ^ wsTestState.reconnectAttempts) :=
  ⟨by decide, by decide, ((C2_reconnect_policy wsTestState 1006 (by decide)).1 (by decide)).1⟩

/-- C4: processing an inbound session-created message while connected with
a live socket stores the session id and sends exactly one message, a
session.update carrying audio+text modalities, the fixed voice "alloy",
PCM16 input and output formats and the voice-activity turn-detection
parameters, all before any further inbound message is handled (the effect
belongs to this one message's processing). -/
theorem C4_session_created_handshake (s : WSState) (sid : String)
    (hc : s.isConnected = true) (hsock : s.hasSocket = true) :
    (handleMessage false (.sessionCreated sid) s).st.sessionId = some sid ∧
    (handleMessage false (.sessionCreated sid) s).sent.map OutMsg.body =
        [MsgBody.sessionUpdate sessionCreatedConfig] ∧
    (handleMessage false (.sessionCreated sid) s).sent.length = 1 ∧
    sessionCreatedConfig.modalities = [Modality.audio, Modality.text] ∧
    sessionCreatedConfig.voice = "alloy" ∧
    sessionCreatedConfig.inputAudioFormat = "pcm16" ∧
    sessionCreatedConfig.outputAudioFormat = "pcm16" ∧
    sessionCreatedConfig.turnDetection.detectType = "semantic_vad" ∧
    sessionCreatedConfig.turnDetection.threshold = 1 / 2 ∧
    sessionCreatedConfig.turnDetection.paddingMs = 300 ∧
    sessionCreatedConfig.turnDetection.silenceMs = 700 := by
  refine ⟨?_, ?_, ?_, rfl, rfl, rfl, rfl, rfl, rfl, rfl, rfl⟩ <;>
    simp [handleMessage, handleSessionCreated, updateSession, sendMessage, hc, hsock]

/-- Witness for C4: the handshake from the test state. -/
theorem C4_session_created_handshake_witness :
    (wsTestState.isConnected = true ∧ wsTestState.hasSocket = true) ∧
    (handleMessage false (InMsg.sessionCreated "sess_1") wsTestState).sent.map OutMsg.body =
      [MsgBody.sessionUpdate sessionCreatedConfig] :=
  ⟨⟨rfl, rfl⟩, (C4_session_created_handshake wsTestState "sess_1" rfl rfl).2.1⟩

/-- C9: the reconnect attempt counter is reset to zero by `handleOpen` (the
channel open event) and by no other operation: `disconnect`, `connect`, a
scheduled retry firing, every sender and every inbound-message handler
leave it unchanged, and `handleClose` leaves it unchanged or increments it
(via `attemptReconnect`), so no transition other than a successful open can
bring a positive counter back to zero. -/
theorem C9_attempts_reset_only_on_open :
    (∀ s, (handleOpen s).st.reconnectAttempts = 0) ∧
    (∀ s, (disconnect s).st.reconnectAttempts = s.reconnectAttempts) ∧
    (∀ cf s, (connect cf s).st.reconnectAttempts = s.reconnectAttempts) ∧
    (∀ code s, (handleClose code s).st.reconnectAttempts = s.reconnectAttempts ∨
      (handleClose code s).st.reconnectAttempts = s.reconnectAttempts + 1) ∧
    (∀ cf s, (reconnectTimerFire cf s).st.reconnectAttempts = s.reconnectAttempts) ∧
    (∀ fail body s, (sendMessage fail body s).st.reconnectAttempts = s.reconnectAttempts) ∧
    (∀ fail d s, (appendAudioBuffer fail d s).st.reconnectAttempts = s.reconnectAttempts) ∧
    (∀ fail s, (commitAudioBuffer fail s).st.reconnectAttempts = s.reconnectAttempts) ∧
    (∀ fail s, (clearAudioBuffer fail s).st.reconnectAttempts = s.reconnectAttempts) ∧
    (∀ fail s, (createResponse fail s).st.reconnectAttempts = s.reconnectAttempts) ∧
    (∀ fail s, (cancelResponse fail s).st.reconnectAttempts = s.reconnectAttempts) ∧
    (∀ fail m s, (handleMessage fail m s).st.reconnectAttempts = s.reconnectAttempts) := by
  refine ⟨fun s => rfl, ?_, ?_, ?_, ?_, sendMessage_attempts, ?_, ?_, ?_, ?_, ?_, ?_⟩
  · intro s
    unfold disconnect
    split_ifs <;> rfl
  · intro cf s
    unfold connect
    split_ifs <;> rfl
  · intro code s
    simp only [handleClose, attemptReconnect]
    split_ifs <;> simp
  · intro cf s
    unfold reconnectTimerFire connect
    split_ifs <;> rfl
  · intro fail d s
    unfold appendAudioBuffer
    split_ifs
    · rfl
    · rw [sendMessage_attempts]
  · intro fail s
    unfold commitAudioBuffer
    split_ifs
    · rfl
    · simp [sendMessage_attempts]
  · intro fail s
    unfold clearAudioBuffer
    rw [sendMessage_attempts]
  · intro fail s
    unfold createResponse
    rw [sendMessage_attempts]
  · intro fail s
    unfold cancelResponse
    cases s.currentResponseId
    · rfl
    · rw [sendMessage_attempts]
  · intro fail m s
    cases m
    case sessionCreated sid =>
      simp only [handleMessage, handleSessionCreated, updateSession]
      simp [sendMessage_attempts]
    case audioDelta d => cases d <;> rfl
    all_goals rfl

/-- C10: while connected, `appendAudioBuffer` increments the pending
counter before the send is attempted, and the counter stays incremented
even when `socket.send` throws (the call then sends nothing and returns
null): the counter counts attempted appends, not delivered ones. -/
theorem C10_append_counter_on_send_failure (fail : Bool) (d : List ℤ) (s : WSState)
    (hc : s.isConnected = true) :
    (appendAudioBuffer fail d s).st.pendingAudioBuffers = s.pendingAudioBuffers + 1 ∧
    (appendAudioBuffer true d s).st.pendingAudioBuffers = s.pendingAudioBuffers + 1 ∧
    (appendAudioBuffer true d s).sent = [] ∧
    (appendAudioBuffer true d s).ret = none := by
  refine ⟨(appendAudioBuffer_st fail d s hc).2.2.1,
    (appendAudioBuffer_st true d s hc).2.2.1, ?_, ?_⟩ <;>
    cases hs : s.hasSocket <;> simp [appendAudioBuffer, sendMessage, hc, hs]

/-- Witness for C10: a failing append from the test state still increments
the counter and returns null. -/
theorem C10_append_counter_on_send_failure_witness :
    wsTestState.isConnected = true ∧
    ((appendAudioBuffer true [0] wsTestState).st.pendingAudioBuffers =
        wsTestState.pendingAudioBuffers + 1 ∧
      (appendAudioBuffer true [0] wsTestState).ret = none) :=
  ⟨rfl,
    (C10_append_counter_on_send_failure true [0] wsTestState rfl).2.1,
    (C10_append_counter_on_send_failure true [0] wsTestState rfl).2.2.2⟩
